import Mathlib

/-! Transit cache configuration endpoint.

A shallow embedding of `builtin/logical/transit/path_cache_config.go`:
the schema `pathCacheConfig` and the two request handlers
`pathCacheConfigWrite` and `pathCacheConfigRead`.

The handlers talk to the lock manager of package `keysutil` through four
methods.  That package lies outside this file, so the methods are a
parameter (`LockManager σ`, over an arbitrary manager state `σ`).  Every
method invocation is recorded in a call log carried next to the manager
state, so that "invokes", "never calls" and "exactly once" are statements
about the embedding.
-/

namespace Transit

/-! ## Package `keysutil` -/

/-- Modelled from the spec: the declaration of `keysutil.CacheType` is missing.
It is an integer-like enumeration with the named constants `SYNCMAP`, `LRU`
and `NOTIMPLEMENTED` that the handlers mention; `other` stands for every
value of the type that is none of the three. -/
inductive CacheType where
  | SYNCMAP
  | LRU
  | NOTIMPLEMENTED
  | other (code : Nat)
  deriving DecidableEq, Repr

/-- The methods of `keysutil.LockManager` that the handlers invoke, over a
manager state `σ`.  `ConvertCacheToLRU` takes the requested size first. -/
structure LockManager (σ : Type) where
  ConvertCacheToSyncmap : σ → σ
  ConvertCacheToLRU : Int → σ → σ
  GetCacheType : σ → CacheType
  GetCacheLength : σ → Int

/-- One invocation of a lock-manager method, as recorded in the call log. -/
inductive LMCall where
  | ConvertCacheToSyncmap
  | ConvertCacheToLRU (size : Int)
  | GetCacheType
  | GetCacheLength
  deriving DecidableEq, Repr

/-- The transit backend as far as the handlers use it: the lock manager `lm`
and the log of the methods invoked on it so far (oldest first). -/
structure backend (σ : Type) where
  lm : σ
  calls : List LMCall

/-- Call `b.lm.ConvertCacheToSyncmap()`. -/
def backend.ConvertCacheToSyncmap {σ : Type} (ops : LockManager σ) (b : backend σ) : backend σ :=
  ⟨ops.ConvertCacheToSyncmap b.lm, b.calls ++ [LMCall.ConvertCacheToSyncmap]⟩

/-- Call `b.lm.ConvertCacheToLRU(size)`. -/
def backend.ConvertCacheToLRU {σ : Type} (ops : LockManager σ) (size : Int) (b : backend σ) :
    backend σ :=
  ⟨ops.ConvertCacheToLRU size b.lm, b.calls ++ [LMCall.ConvertCacheToLRU size]⟩

/-- Call `b.lm.GetCacheType()`: the value read and the backend afterwards. -/
def backend.GetCacheType {σ : Type} (ops : LockManager σ) (b : backend σ) :
    CacheType × backend σ :=
  (ops.GetCacheType b.lm, ⟨b.lm, b.calls ++ [LMCall.GetCacheType]⟩)

/-- Call `b.lm.GetCacheLength()`: the value read and the backend afterwards. -/
def backend.GetCacheLength {σ : Type} (ops : LockManager σ) (b : backend σ) :
    Int × backend σ :=
  (ops.GetCacheLength b.lm, ⟨b.lm, b.calls ++ [LMCall.GetCacheLength]⟩)

/-! ## The key cache behind the lock manager -/

/-- Modelled from the spec: the `KeyEntry` of the data model, key material
identified by its name, whose contents the cache does not look at. -/
structure KeyEntry where
  material : List Nat
  deriving DecidableEq, Repr

/-- Modelled from the spec: the `CacheStrategy` of the data model, either the
unbounded concurrent map or the bounded least-recently-used cache. -/
inductive CacheStrategy where
  | Unbounded
  | Bounded (capacity : Int)
  deriving DecidableEq, Repr

/-- Modelled from the spec: the `Cache` of the data model, a mapping from key
name to key entry under exactly one active strategy.  The mapping is an
association list in which the first pair of a name is the one that counts. -/
structure Cache where
  strategy : CacheStrategy
  entries : List (String × KeyEntry)
  deriving DecidableEq, Repr

/-- Modelled from the spec: the names currently resident in the cache. -/
def Cache.names (c : Cache) : List String :=
  (c.entries.map Prod.fst).dedup

/-- Modelled from the spec: `Len()`, the number of entries currently held,
which is the number of distinct names resident. -/
def Cache.Len (c : Cache) : Int :=
  (c.names.length : Int)

/-- Modelled from the spec: `SwitchTo(kind, capacity)` of the cache strategy
switch.  A bounded strategy needs a capacity above zero, else the switch fails
and the cache is left as it was; a successful switch makes a new empty backing
store of the requested kind the active one, and copies no entry forward. -/
def Cache.SwitchTo (kind : CacheStrategy) (_c : Cache) : Option Cache :=
  match kind with
  | CacheStrategy.Unbounded => some ⟨CacheStrategy.Unbounded, []⟩
  | CacheStrategy.Bounded capacity =>
    if 0 < capacity then some ⟨CacheStrategy.Bounded capacity, []⟩ else none

/-- Modelled from the spec: `CurrentStrategyKind()` reported as a cache type,
`SYNCMAP` for the unbounded strategy and `LRU` for the bounded one. -/
def Cache.CurrentStrategyKind (c : Cache) : CacheType :=
  match c.strategy with
  | CacheStrategy.Unbounded => CacheType.SYNCMAP
  | CacheStrategy.Bounded _ => CacheType.LRU

/-- Modelled from the spec: the lock manager of package `keysutil`, whose four
methods are the cache strategy switch and the metadata reads of the key cache.
A switch that fails leaves the cache as it was. -/
def specLockManager : LockManager Cache where
  ConvertCacheToSyncmap c := (c.SwitchTo CacheStrategy.Unbounded).getD c
  ConvertCacheToLRU size c := (c.SwitchTo (CacheStrategy.Bounded size)).getD c
  GetCacheType c := c.CurrentStrategyKind
  GetCacheLength c := c.Len

/-! ## Package `logical`: responses and errors -/

/-- A value stored in a response's `Data` map (`interface{}` in the source). -/
inductive Value where
  | str (s : String)
  | int (n : Int)
  | bool (b : Bool)
  deriving DecidableEq, Repr

/-- A `map[string]interface{}` as an association list with distinct keys. -/
abbrev DataMap := List (String × Value)

/-- The map index expression `m[k]`, `none` when the key is not present. -/
def DataMap.get (m : DataMap) (k : String) : Option Value :=
  match m with
  | [] => none
  | (k1, v1) :: rest => if k1 = k then some v1 else DataMap.get rest k

/-- The map assignment `m[k] = v`. -/
def DataMap.set (m : DataMap) (k : String) (v : Value) : DataMap :=
  match m with
  | [] => [(k, v)]
  | (k1, v1) :: rest => if k1 = k then (k, v) :: rest else (k1, v1) :: DataMap.set rest k v

/-- The part of `logical.Response` the handlers fill in. -/
structure Response where
  Data : DataMap
  deriving DecidableEq, Repr

/-- Modelled from the spec: `logical.ErrorResponse` is missing; it builds the
error response that carries the message `text`, here under the key `error`. -/
def ErrorResponse (text : String) : Response :=
  ⟨[("error", Value.str text)]⟩

/-- The sentinel errors of package `logical` that the handlers return. -/
inductive LogicalError where
  | ErrInvalidRequest
  deriving DecidableEq, Repr

/-- What a handler returns, `(*logical.Response, error)`; `none` is `nil`. -/
abbrev HandlerResult := Option Response × Option LogicalError

/-! ## Package `framework`: field schemas and field data -/

/-- A field type of the framework together with its zero value. -/
structure FieldType (α : Type) where
  Zero : α

/-- The field type `framework.TypeString`. -/
def TypeString : FieldType String := ⟨""⟩

/-- The field type `framework.TypeInt`. -/
def TypeInt : FieldType Int := ⟨0⟩

/-- The field type `framework.TypeBool`. -/
def TypeBool : FieldType Bool := ⟨false⟩

/-- The part of `framework.FieldSchema` that `pathCacheConfig` sets. -/
structure FieldSchema (α : Type) where
  Typ : FieldType α
  Required : Bool
  Default : Option α

/-- The value used for a field the request does not carry: the schema's
default when it has one, else the zero value of the field's type. -/
def FieldSchema.DefaultOrZero {α : Type} (s : FieldSchema α) : α :=
  match s.Default with
  | some v => v
  | none => s.Typ.Zero

/-- The `Fields` of the path `cache-config`. -/
structure CacheConfigFields where
  cacheType : FieldSchema String
  cacheSize : FieldSchema Int
  computeCacheLength : FieldSchema Bool

/-- The path `cache-config`: pattern and field schemas. -/
structure Path where
  Pattern : String
  Fields : CacheConfigFields

/-- The path definition returned by `pathCacheConfig`. -/
def pathCacheConfig : Path :=
  ⟨"cache-config",
    ⟨⟨TypeString, true, none⟩,
     ⟨TypeInt, false, none⟩,
     ⟨TypeBool, false, some false⟩⟩⟩

/-- The decoded fields of a request (`framework.FieldData`): each of the three
fields of the path, `none` when the request does not carry it.  Integers are
Go `int`; the handlers only compare them with zero, so they are unbounded
here. -/
structure FieldData where
  cacheType : Option String
  cacheSize : Option Int
  computeCacheLength : Option Bool

/-- Modelled from the spec: `FieldData.Get` is missing; it yields the request's
value for a field, or the schema's default or zero value when the request does
not carry the field. -/
def Get {α : Type} (raw : Option α) (s : FieldSchema α) : α :=
  match raw with
  | some v => v
  | none => s.DefaultOrZero

/-- The expression `d.Get("cache-type").(string)`. -/
def FieldData.cacheTypeStr (d : FieldData) : String :=
  Get d.cacheType pathCacheConfig.Fields.cacheType

/-- The expression `d.Get("cache-size").(int)`. -/
def FieldData.cacheSizeInt (d : FieldData) : Int :=
  Get d.cacheSize pathCacheConfig.Fields.cacheSize

/-- The expression `d.Get("compute-cache-length").(bool)`. -/
def FieldData.computeLength (d : FieldData) : Bool :=
  Get d.computeCacheLength pathCacheConfig.Fields.computeCacheLength

/-! ## The handlers -/

/-- The handler `pathCacheConfigWrite`: the result and the backend afterwards. -/
def pathCacheConfigWrite {σ : Type} (ops : LockManager σ) (b : backend σ) (d : FieldData) :
    HandlerResult × backend σ :=
  let cacheTypeStr := d.cacheTypeStr
  let cacheSize := d.cacheSizeInt
  let cacheType : CacheType :=
    if cacheTypeStr = "syncmap" then CacheType.SYNCMAP
    else if cacheTypeStr = "lru" then CacheType.LRU
    else CacheType.NOTIMPLEMENTED
  if cacheType = CacheType.NOTIMPLEMENTED then
    ((some (ErrorResponse ("unknown cache-type " ++ cacheTypeStr)),
      some LogicalError.ErrInvalidRequest), b)
  else if cacheType = CacheType.LRU ∧ cacheSize ≤ 0 then
    ((some (ErrorResponse
        "for lru cache-type, cache-size must be specified and be greater than zero"),
      some LogicalError.ErrInvalidRequest), b)
  else
    let b1 := if cacheType = CacheType.SYNCMAP then b.ConvertCacheToSyncmap ops else b
    let b2 := if cacheType = CacheType.LRU then b1.ConvertCacheToLRU ops cacheSize else b1
    ((none, none), b2)

/-- The handler `pathCacheConfigRead`: the result and the backend afterwards. -/
def pathCacheConfigRead {σ : Type} (ops : LockManager σ) (b : backend σ) (d : FieldData) :
    HandlerResult × backend σ :=
  let r := b.GetCacheType ops
  let cacheType : String :=
    match r.1 with
    | CacheType.SYNCMAP => "syncMap"
    | CacheType.LRU => "lru"
    | _ => "unknown"
  let resp : Response := ⟨[("cache-type", Value.str cacheType)]⟩
  if d.computeLength then
    let l := r.2.GetCacheLength ops
    ((some ⟨resp.Data.set "cache-length" (Value.int l.1)⟩, none), l.2)
  else
    ((some resp, none), r.2)

/-- The value of field `k` in a handler's response, `none` when there is no
response or the response has no such field. -/
def HandlerResult.field (r : HandlerResult) (k : String) : Option Value :=
  match r.1 with
  | some resp => resp.Data.get k
  | none => none

/-! ## Helper lemmas: the three outcomes of `pathCacheConfigWrite` -/

/-- Outcome of the write handler for a cache type that is neither of the two
supported strings. -/
lemma write_unknown {σ : Type} (ops : LockManager σ) (b : backend σ) (d : FieldData)
    (h1 : d.cacheTypeStr ≠ "syncmap") (h2 : d.cacheTypeStr ≠ "lru") :
    pathCacheConfigWrite ops b d =
      ((some (ErrorResponse ("unknown cache-type " ++ d.cacheTypeStr)),
        some LogicalError.ErrInvalidRequest), b) := by
  simp [pathCacheConfigWrite, h1, h2]

/-- Outcome of the write handler for `syncmap`. -/
lemma write_syncmap {σ : Type} (ops : LockManager σ) (b : backend σ) (d : FieldData)
    (h : d.cacheTypeStr = "syncmap") :
    pathCacheConfigWrite ops b d =
      ((none, none),
        ⟨ops.ConvertCacheToSyncmap b.lm, b.calls ++ [LMCall.ConvertCacheToSyncmap]⟩) := by
  simp [pathCacheConfigWrite, h, backend.ConvertCacheToSyncmap]

/-- Outcome of the write handler for `lru` with a size that is not positive. -/
lemma write_lru_bad {σ : Type} (ops : LockManager σ) (b : backend σ) (d : FieldData)
    (h : d.cacheTypeStr = "lru") (hs : d.cacheSizeInt ≤ 0) :
    pathCacheConfigWrite ops b d =
      ((some (ErrorResponse
          "for lru cache-type, cache-size must be specified and be greater than zero"),
        some LogicalError.ErrInvalidRequest), b) := by
  simp [pathCacheConfigWrite, h, hs]

/-- Outcome of the write handler for `lru` with a positive size. -/
lemma write_lru_ok {σ : Type} (ops : LockManager σ) (b : backend σ) (d : FieldData)
    (h : d.cacheTypeStr = "lru") (hs : 0 < d.cacheSizeInt) :
    pathCacheConfigWrite ops b d =
      ((none, none),
        ⟨ops.ConvertCacheToLRU d.cacheSizeInt b.lm,
          b.calls ++ [LMCall.ConvertCacheToLRU d.cacheSizeInt]⟩) := by
  simp [pathCacheConfigWrite, h, hs, backend.ConvertCacheToLRU]

/-! ## The write handler: errors -/

/-- C1: a write whose cache-type string is neither "syncmap" nor "lru" (exact,
case-sensitive comparison) returns, for every cache-size, the error response
with message "unknown cache-type " followed by the supplied string, together
with ErrInvalidRequest; the cache-size is not looked at. -/
theorem pathCacheConfigWrite_unknown_cache_type {σ : Type} (ops : LockManager σ)
    (b : backend σ) (d : FieldData)
    (h1 : d.cacheTypeStr ≠ "syncmap") (h2 : d.cacheTypeStr ≠ "lru") :
    (pathCacheConfigWrite ops b d).1 =
      (some (ErrorResponse ("unknown cache-type " ++ d.cacheTypeStr)),
        some LogicalError.ErrInvalidRequest) := by
  rw [write_unknown ops b d h1 h2]

/-- Witness of C1: the upper-case string "LRU" with the non-positive size -4 is
answered with the unknown-type message, not with the cache-size message. -/
theorem pathCacheConfigWrite_unknown_cache_type_witness :
    (pathCacheConfigWrite specLockManager ⟨⟨CacheStrategy.Unbounded, []⟩, []⟩
        ⟨some "LRU", some (-4), none⟩).1 =
      (some (ErrorResponse "unknown cache-type LRU"), some LogicalError.ErrInvalidRequest) :=
  pathCacheConfigWrite_unknown_cache_type specLockManager ⟨⟨CacheStrategy.Unbounded, []⟩, []⟩
    ⟨some "LRU", some (-4), none⟩ (by decide) (by decide)

/-- C2: a write with cache-type "lru" and cache-size at most zero returns the
error response with the message "for lru cache-type, cache-size must be
specified and be greater than zero" together with ErrInvalidRequest; for
cache-type "lru" an error is returned if and only if cache-size is at most
zero; and an absent cache-size reads as zero. -/
theorem pathCacheConfigWrite_lru_cache_size {σ : Type} (ops : LockManager σ)
    (b : backend σ) (d : FieldData) (h : d.cacheTypeStr = "lru") :
    (d.cacheSizeInt ≤ 0 →
        (pathCacheConfigWrite ops b d).1 =
          (some (ErrorResponse
              "for lru cache-type, cache-size must be specified and be greater than zero"),
            some LogicalError.ErrInvalidRequest)) ∧
      ((pathCacheConfigWrite ops b d).1.2 ≠ none ↔ d.cacheSizeInt ≤ 0) ∧
      (d.cacheSize = none → d.cacheSizeInt = 0) := by
  refine ⟨fun hs => by rw [write_lru_bad ops b d h hs], ?_, ?_⟩
  · constructor
    · intro herr
      by_contra hpos
      exact herr (by rw [write_lru_ok ops b d h (not_le.mp hpos)])
    · intro hs
      rw [write_lru_bad ops b d h hs]
      simp
  · intro hnone
    simp [FieldData.cacheSizeInt, hnone, Get, FieldSchema.DefaultOrZero, pathCacheConfig,
      TypeInt]

/-- Witness of C2: cache-type "lru" without a cache-size is refused with the
cache-size message. -/
theorem pathCacheConfigWrite_lru_cache_size_witness :
    (pathCacheConfigWrite specLockManager ⟨⟨CacheStrategy.Unbounded, []⟩, []⟩
        ⟨some "lru", none, none⟩).1 =
      (some (ErrorResponse
          "for lru cache-type, cache-size must be specified and be greater than zero"),
        some LogicalError.ErrInvalidRequest) :=
  (pathCacheConfigWrite_lru_cache_size specLockManager ⟨⟨CacheStrategy.Unbounded, []⟩, []⟩
    ⟨some "lru", none, none⟩ rfl).1 (by decide)

/-- C3: whenever the write handler returns an error, the request had an unknown
cache-type or had cache-type "lru" with a cache-size of at most zero, and the
handler invoked no lock-manager method: the call log and the lock manager
(hence its strategy, capacity and contents) are what they were before. -/
theorem pathCacheConfigWrite_error_leaves_cache {σ : Type} (ops : LockManager σ)
    (b : backend σ) (d : FieldData) (herr : (pathCacheConfigWrite ops b d).1.2 ≠ none) :
    ((d.cacheTypeStr ≠ "syncmap" ∧ d.cacheTypeStr ≠ "lru") ∨
        (d.cacheTypeStr = "lru" ∧ d.cacheSizeInt ≤ 0)) ∧
      (pathCacheConfigWrite ops b d).2.calls = b.calls ∧
      (pathCacheConfigWrite ops b d).2.lm = b.lm ∧
      (pathCacheConfigWrite ops b d).2 = b := by
  by_cases h1 : d.cacheTypeStr = "syncmap"
  · exact absurd (by rw [write_syncmap ops b d h1]) herr
  · by_cases h2 : d.cacheTypeStr = "lru"
    · by_cases hs : d.cacheSizeInt ≤ 0
      · rw [write_lru_bad ops b d h2 hs]
        exact ⟨Or.inr ⟨h2, hs⟩, rfl, rfl, rfl⟩
      · exact absurd (by rw [write_lru_ok ops b d h2 (not_le.mp hs)]) herr
    · rw [write_unknown ops b d h1 h2]
      exact ⟨Or.inl ⟨h1, h2⟩, rfl, rfl, rfl⟩

/-- Witness of C3: a bounded cache of capacity 7 holding one entry is left
untouched by a refused switch to "lru" with size 0. -/
theorem pathCacheConfigWrite_error_leaves_cache_witness :
    (pathCacheConfigWrite specLockManager
        ⟨⟨CacheStrategy.Bounded 7, [("k", ⟨[1]⟩)]⟩, [LMCall.GetCacheType]⟩
        ⟨some "lru", some 0, none⟩).2.lm = ⟨CacheStrategy.Bounded 7, [("k", ⟨[1]⟩)]⟩ :=
  (pathCacheConfigWrite_error_leaves_cache specLockManager
    ⟨⟨CacheStrategy.Bounded 7, [("k", ⟨[1]⟩)]⟩, [LMCall.GetCacheType]⟩
    ⟨some "lru", some 0, none⟩ (by decide)).2.2.1

/-! ## The write handler: the strategy switch -/

/-- C4: a write that passes validation (cache-type "syncmap" with any
cache-size, or cache-type "lru" with a cache-size above zero) returns a nil
response and a nil error and performs exactly one strategy switch: for
"syncmap" the only method invoked is ConvertCacheToSyncmap, once, whatever the
cache-size (zero, negative or absent included); for "lru" the only method
invoked is ConvertCacheToLRU, once, with exactly the cache-size supplied. -/
theorem pathCacheConfigWrite_valid_switches_once {σ : Type} (ops : LockManager σ)
    (b : backend σ) (d : FieldData)
    (h : d.cacheTypeStr = "syncmap" ∨ (d.cacheTypeStr = "lru" ∧ 0 < d.cacheSizeInt)) :
    (pathCacheConfigWrite ops b d).1 = (none, none) ∧
      (d.cacheTypeStr = "syncmap" →
        (pathCacheConfigWrite ops b d).2 =
          ⟨ops.ConvertCacheToSyncmap b.lm, b.calls ++ [LMCall.ConvertCacheToSyncmap]⟩) ∧
      (d.cacheTypeStr = "lru" →
        (pathCacheConfigWrite ops b d).2 =
          ⟨ops.ConvertCacheToLRU d.cacheSizeInt b.lm,
            b.calls ++ [LMCall.ConvertCacheToLRU d.cacheSizeInt]⟩) := by
  rcases h with h | ⟨h, hs⟩
  · rw [write_syncmap ops b d h]
    refine ⟨rfl, fun _ => rfl, fun h2 => ?_⟩
    rw [h] at h2
    exact absurd h2 (by decide)
  · rw [write_lru_ok ops b d h hs]
    refine ⟨rfl, fun h2 => ?_, fun _ => rfl⟩
    rw [h] at h2
    exact absurd h2 (by decide)

/-- Witness of C4: "syncmap" without a cache-size on a bounded cache invokes
ConvertCacheToSyncmap and nothing else, and "lru" with size 500 on an
unbounded cache invokes ConvertCacheToLRU(500) and nothing else. -/
theorem pathCacheConfigWrite_valid_switches_once_witness :
    (pathCacheConfigWrite specLockManager ⟨⟨CacheStrategy.Bounded 7, [("k", ⟨[1]⟩)]⟩, []⟩
        ⟨some "syncmap", none, none⟩).2 =
      ⟨⟨CacheStrategy.Unbounded, []⟩, [LMCall.ConvertCacheToSyncmap]⟩ ∧
    (pathCacheConfigWrite specLockManager ⟨⟨CacheStrategy.Unbounded, [("k", ⟨[1]⟩)]⟩, []⟩
        ⟨some "lru", some 500, none⟩).2 =
      ⟨⟨CacheStrategy.Bounded 500, []⟩, [LMCall.ConvertCacheToLRU 500]⟩ :=
  ⟨(pathCacheConfigWrite_valid_switches_once specLockManager
      ⟨⟨CacheStrategy.Bounded 7, [("k", ⟨[1]⟩)]⟩, []⟩
      ⟨some "syncmap", none, none⟩ (Or.inl rfl)).2.1 rfl,
    (pathCacheConfigWrite_valid_switches_once specLockManager
      ⟨⟨CacheStrategy.Unbounded, [("k", ⟨[1]⟩)]⟩, []⟩
      ⟨some "lru", some 500, none⟩ (Or.inr ⟨rfl, by decide⟩)).2.2 rfl⟩

/-! ## Helper lemmas: the read handler -/

/-- The read handler returns a response and a nil error. -/
lemma read_returns {σ : Type} (ops : LockManager σ) (b : backend σ) (d : FieldData) :
    (pathCacheConfigRead ops b d).1.2 = none ∧ (pathCacheConfigRead ops b d).1.1 ≠ none := by
  unfold pathCacheConfigRead
  by_cases hc : d.computeLength = true <;> simp [hc]

/-- The `cache-type` field of the read handler's response. -/
lemma read_cache_type {σ : Type} (ops : LockManager σ) (b : backend σ) (d : FieldData) :
    (pathCacheConfigRead ops b d).1.field "cache-type" =
      some (Value.str
        (match ops.GetCacheType b.lm with
          | CacheType.SYNCMAP => "syncMap"
          | CacheType.LRU => "lru"
          | _ => "unknown")) := by
  unfold pathCacheConfigRead
  by_cases hc : d.computeLength = true <;>
    simp [hc, HandlerResult.field, DataMap.get, DataMap.set, backend.GetCacheType]

/-- The `cache-type` field of the read handler's response is one of three
strings. -/
lemma read_cache_type_cases {σ : Type} (ops : LockManager σ) (b : backend σ) (d : FieldData) :
    (pathCacheConfigRead ops b d).1.field "cache-type" = some (Value.str "syncMap") ∨
      (pathCacheConfigRead ops b d).1.field "cache-type" = some (Value.str "lru") ∨
      (pathCacheConfigRead ops b d).1.field "cache-type" = some (Value.str "unknown") := by
  rw [read_cache_type]
  cases ops.GetCacheType b.lm <;> simp

/-- The read handler without the length computation. -/
lemma read_plain {σ : Type} (ops : LockManager σ) (b : backend σ) (d : FieldData)
    (hc : d.computeLength = false) :
    pathCacheConfigRead ops b d =
      ((some ⟨[("cache-type", Value.str
          (match ops.GetCacheType b.lm with
            | CacheType.SYNCMAP => "syncMap"
            | CacheType.LRU => "lru"
            | _ => "unknown"))]⟩, none),
        ⟨b.lm, b.calls ++ [LMCall.GetCacheType]⟩) := by
  simp [pathCacheConfigRead, hc, backend.GetCacheType]

/-- The read handler with the length computation. -/
lemma read_with_length {σ : Type} (ops : LockManager σ) (b : backend σ) (d : FieldData)
    (hc : d.computeLength = true) :
    pathCacheConfigRead ops b d =
      ((some ⟨[("cache-type", Value.str
          (match ops.GetCacheType b.lm with
            | CacheType.SYNCMAP => "syncMap"
            | CacheType.LRU => "lru"
            | _ => "unknown")),
          ("cache-length", Value.int (ops.GetCacheLength b.lm))]⟩, none),
        ⟨b.lm, b.calls ++ [LMCall.GetCacheType, LMCall.GetCacheLength]⟩) := by
  simp [pathCacheConfigRead, hc, backend.GetCacheType, backend.GetCacheLength, DataMap.set]

/-! ## The read handler -/

/-- C5: for every state of the lock manager the read handler returns a nil
error and a response whose "cache-type" field is "syncMap" when GetCacheType
is SYNCMAP, "lru" when it is LRU and "unknown" for every other cache type; the
field is always one of these three strings. -/
theorem pathCacheConfigRead_cache_type {σ : Type} (ops : LockManager σ) (b : backend σ)
    (d : FieldData) :
    (pathCacheConfigRead ops b d).1.2 = none ∧
      (pathCacheConfigRead ops b d).1.1 ≠ none ∧
      (ops.GetCacheType b.lm = CacheType.SYNCMAP →
        (pathCacheConfigRead ops b d).1.field "cache-type" = some (Value.str "syncMap")) ∧
      (ops.GetCacheType b.lm = CacheType.LRU →
        (pathCacheConfigRead ops b d).1.field "cache-type" = some (Value.str "lru")) ∧
      (ops.GetCacheType b.lm ≠ CacheType.SYNCMAP → ops.GetCacheType b.lm ≠ CacheType.LRU →
        (pathCacheConfigRead ops b d).1.field "cache-type" = some (Value.str "unknown")) ∧
      ((pathCacheConfigRead ops b d).1.field "cache-type" = some (Value.str "syncMap") ∨
        (pathCacheConfigRead ops b d).1.field "cache-type" = some (Value.str "lru") ∨
        (pathCacheConfigRead ops b d).1.field "cache-type" = some (Value.str "unknown")) := by
  refine ⟨(read_returns ops b d).1, (read_returns ops b d).2, ?_, ?_, ?_,
    read_cache_type_cases ops b d⟩
  · intro h
    rw [read_cache_type, h]
  · intro h
    rw [read_cache_type, h]
  · intro h1 h2
    rw [read_cache_type]
    cases hT : ops.GetCacheType b.lm <;> simp_all

/-- C6: the read handler's response has a "cache-length" field if and only if
the request carries compute-cache-length = true.  For such a request the
handler invokes GetCacheType and then GetCacheLength, and the response data is
"cache-type" followed by "cache-length" holding the value GetCacheLength
returned.  For a request that carries compute-cache-length = false or does not
carry the field (it defaults to false, so both requests are answered alike),
GetCacheLength is not invoked and the response data holds "cache-type" only.
Either way the lock manager is left as it was.  On the key cache of the data
model the value reported is the number of distinct names resident. -/
theorem pathCacheConfigRead_cache_length {σ : Type} (ops : LockManager σ) (b : backend σ)
    (ct : Option String) (cs : Option Int) (flag : Option Bool) :
    ((pathCacheConfigRead ops b ⟨ct, cs, flag⟩).1.field "cache-length" ≠ none ↔
        flag = some true) ∧
      (flag = some true →
        (pathCacheConfigRead ops b ⟨ct, cs, flag⟩).1.field "cache-length" =
            some (Value.int (ops.GetCacheLength b.lm)) ∧
          (∃ t, (pathCacheConfigRead ops b ⟨ct, cs, flag⟩).1.1 =
            some ⟨[("cache-type", Value.str t),
              ("cache-length", Value.int (ops.GetCacheLength b.lm))]⟩) ∧
          (pathCacheConfigRead ops b ⟨ct, cs, flag⟩).2.calls =
            b.calls ++ [LMCall.GetCacheType, LMCall.GetCacheLength]) ∧
      (flag ≠ some true →
        (pathCacheConfigRead ops b ⟨ct, cs, flag⟩).2.calls =
            b.calls ++ [LMCall.GetCacheType] ∧
          LMCall.GetCacheLength ∉
            (pathCacheConfigRead ops b ⟨ct, cs, flag⟩).2.calls.drop b.calls.length ∧
          ∃ t, (pathCacheConfigRead ops b ⟨ct, cs, flag⟩).1.1 =
            some ⟨[("cache-type", Value.str t)]⟩) ∧
      pathCacheConfigRead ops b ⟨ct, cs, none⟩ = pathCacheConfigRead ops b ⟨ct, cs, some false⟩ ∧
      (pathCacheConfigRead ops b ⟨ct, cs, flag⟩).2.lm = b.lm ∧
      (∀ (c : Cache) (calls : List LMCall),
        (pathCacheConfigRead specLockManager ⟨c, calls⟩ ⟨ct, cs, some true⟩).1.field
            "cache-length" =
          some (Value.int ((c.entries.map Prod.fst).toFinset.card : Int))) := by
  have hon : ∀ {τ : Type} (o : LockManager τ) (b0 : backend τ), _ :=
    fun {τ : Type} (o : LockManager τ) (b0 : backend τ) =>
      read_with_length o b0 ⟨ct, cs, some true⟩ rfl
  have hoff := read_plain ops b ⟨ct, cs, some false⟩ rfl
  have hnone := read_plain ops b ⟨ct, cs, none⟩ rfl
  have hdef : pathCacheConfigRead ops b ⟨ct, cs, none⟩ =
      pathCacheConfigRead ops b ⟨ct, cs, some false⟩ := by rw [hoff, hnone]
  have hspec : ∀ (c : Cache) (calls : List LMCall),
      (pathCacheConfigRead specLockManager ⟨c, calls⟩ ⟨ct, cs, some true⟩).1.field
          "cache-length" =
        some (Value.int ((c.entries.map Prod.fst).toFinset.card : Int)) := by
    intro c calls
    rw [hon specLockManager ⟨c, calls⟩]
    simp [HandlerResult.field, DataMap.get, specLockManager, Cache.Len, Cache.names,
      List.card_toFinset]
  refine ⟨?_, ?_, ?_, hdef, ?_, hspec⟩
  · rcases flag with _ | _ | _
    · rw [hnone]
      simp [HandlerResult.field, DataMap.get]
    · rw [hoff]
      simp [HandlerResult.field, DataMap.get]
    · rw [hon ops b]
      simp [HandlerResult.field, DataMap.get]
  · rintro rfl
    rw [hon ops b]
    refine ⟨?_, ⟨_, rfl⟩, rfl⟩
    simp [HandlerResult.field, DataMap.get]
  · intro hflag
    rcases flag with _ | _ | _
    · rw [hnone]
      exact ⟨rfl, by simp, _, rfl⟩
    · rw [hoff]
      exact ⟨rfl, by simp, _, rfl⟩
    · exact absurd rfl hflag
  · rcases flag with _ | _ | _
    · rw [hnone]
    · rw [hoff]
    · rw [hon ops b]

/-- Witness of C6: on an unbounded cache holding two entries, a request that
carries compute-cache-length = true is answered with cache-type "syncMap" and
cache-length 2 after GetCacheType and GetCacheLength were invoked, and a request
without the field is answered with cache-type "syncMap" only, after GetCacheType
alone. -/
theorem pathCacheConfigRead_cache_length_witness :
    ((pathCacheConfigRead specLockManager
          ⟨⟨CacheStrategy.Unbounded, [("a", ⟨[1]⟩), ("b", ⟨[2]⟩)]⟩, []⟩
          ⟨none, none, some true⟩).1.field "cache-length" = some (Value.int 2) ∧
        (pathCacheConfigRead specLockManager
          ⟨⟨CacheStrategy.Unbounded, [("a", ⟨[1]⟩), ("b", ⟨[2]⟩)]⟩, []⟩
          ⟨none, none, some true⟩).2.calls =
            [] ++ [LMCall.GetCacheType, LMCall.GetCacheLength]) ∧
      (pathCacheConfigRead specLockManager
          ⟨⟨CacheStrategy.Unbounded, [("a", ⟨[1]⟩), ("b", ⟨[2]⟩)]⟩, []⟩
          ⟨none, none, some true⟩).1 =
        (some ⟨[("cache-type", Value.str "syncMap"), ("cache-length", Value.int 2)]⟩,
          none) ∧
      pathCacheConfigRead specLockManager
          ⟨⟨CacheStrategy.Unbounded, [("a", ⟨[1]⟩), ("b", ⟨[2]⟩)]⟩, []⟩
          ⟨none, none, none⟩ =
        ((some ⟨[("cache-type", Value.str "syncMap")]⟩, none),
          ⟨⟨CacheStrategy.Unbounded, [("a", ⟨[1]⟩), ("b", ⟨[2]⟩)]⟩, [LMCall.GetCacheType]⟩) :=
  have hw := (pathCacheConfigRead_cache_length specLockManager
    ⟨⟨CacheStrategy.Unbounded, [("a", ⟨[1]⟩), ("b", ⟨[2]⟩)]⟩, []⟩
    none none (some true)).2.1 rfl
  ⟨⟨hw.1, hw.2.2⟩, by decide, rfl⟩

/-! ## Helper lemmas: the lock manager of the data model -/

/-- A switch to the unbounded strategy yields the empty unbounded cache. -/
lemma spec_convert_syncmap (c : Cache) :
    specLockManager.ConvertCacheToSyncmap c = ⟨CacheStrategy.Unbounded, []⟩ := rfl

/-- A switch to the bounded strategy with a capacity above zero yields the
empty bounded cache of that capacity. -/
lemma spec_convert_lru (n : Int) (c : Cache) (hn : 0 < n) :
    specLockManager.ConvertCacheToLRU n c = ⟨CacheStrategy.Bounded n, []⟩ := by
  simp [specLockManager, Cache.SwitchTo, hn]

/-- The empty cache has length zero. -/
lemma spec_len_empty (k : CacheStrategy) : specLockManager.GetCacheLength ⟨k, []⟩ = 0 := by
  simp [specLockManager, Cache.Len, Cache.names]

/-! ## Write followed by read -/

/-- C7: provided each Convert operation makes GetCacheType report the kind it
converts to, from every initial state a write with cache-type "syncmap"
succeeds and a read after it returns cache-type "syncMap", and a write with
cache-type "lru" and any cache-size above zero succeeds and a read after it
returns cache-type "lru". -/
theorem write_then_read_round_trip {σ : Type} (ops : LockManager σ)
    (hS : ∀ s, ops.GetCacheType (ops.ConvertCacheToSyncmap s) = CacheType.SYNCMAP)
    (hL : ∀ n s, 0 < n → ops.GetCacheType (ops.ConvertCacheToLRU n s) = CacheType.LRU)
    (b : backend σ) (size : Option Int) (ccl : Option Bool) (d2 : FieldData) :
    ((pathCacheConfigWrite ops b ⟨some "syncmap", size, ccl⟩).1 = (none, none) ∧
        (pathCacheConfigRead ops (pathCacheConfigWrite ops b ⟨some "syncmap", size, ccl⟩).2
            d2).1.field "cache-type" = some (Value.str "syncMap")) ∧
      (∀ n : Int, 0 < n →
        (pathCacheConfigWrite ops b ⟨some "lru", some n, ccl⟩).1 = (none, none) ∧
          (pathCacheConfigRead ops (pathCacheConfigWrite ops b ⟨some "lru", some n, ccl⟩).2
              d2).1.field "cache-type" = some (Value.str "lru")) := by
  constructor
  · rw [write_syncmap ops b ⟨some "syncmap", size, ccl⟩ rfl]
    refine ⟨rfl, ?_⟩
    rw [read_cache_type, hS]
  · intro n hn
    rw [write_lru_ok ops b ⟨some "lru", some n, ccl⟩ rfl hn]
    refine ⟨rfl, ?_⟩
    have hT : ops.GetCacheType
        (ops.ConvertCacheToLRU (FieldData.cacheSizeInt ⟨some "lru", some n, ccl⟩) b.lm) =
        CacheType.LRU := hL _ _ hn
    rw [read_cache_type, hT]

/-- Witness of C7: on the key cache of the data model, configuring "lru" with
size 500 and then reading reports cache-type "lru". -/
theorem write_then_read_round_trip_witness :
    (pathCacheConfigRead specLockManager
        (pathCacheConfigWrite specLockManager
          ⟨⟨CacheStrategy.Unbounded, [("k", ⟨[1]⟩)]⟩, []⟩ ⟨some "lru", some 500, none⟩).2
        ⟨none, none, none⟩).1.field "cache-type" = some (Value.str "lru") :=
  ((write_then_read_round_trip specLockManager
      (fun _ => rfl)
      (fun n s hn => by rw [spec_convert_lru n s hn]; rfl)
      ⟨⟨CacheStrategy.Unbounded, [("k", ⟨[1]⟩)]⟩, []⟩ none none ⟨none, none, none⟩).2
    500 (by decide)).2

/-- C8: a valid write always invokes the Convert operation of the requested
kind on the lock manager as it is, whatever cache type and size are active:
the only method it invokes is that Convert, so GetCacheType is not consulted,
and what it invokes does not depend on the state it starts from.  Provided the
Convert operations install an empty cache, the cache is empty afterwards, also
when the requested configuration is the one already active. -/
theorem pathCacheConfigWrite_never_skips_switch {σ : Type} (ops : LockManager σ)
    (b : backend σ) (d : FieldData)
    (h : d.cacheTypeStr = "syncmap" ∨ (d.cacheTypeStr = "lru" ∧ 0 < d.cacheSizeInt))
    (hS : ∀ s, ops.GetCacheLength (ops.ConvertCacheToSyncmap s) = 0)
    (hL : ∀ n s, 0 < n → ops.GetCacheLength (ops.ConvertCacheToLRU n s) = 0) :
    (pathCacheConfigWrite ops b d).2.lm =
        (if d.cacheTypeStr = "syncmap" then ops.ConvertCacheToSyncmap b.lm
          else ops.ConvertCacheToLRU d.cacheSizeInt b.lm) ∧
      (pathCacheConfigWrite ops b d).2.calls =
        b.calls ++ [if d.cacheTypeStr = "syncmap" then LMCall.ConvertCacheToSyncmap
          else LMCall.ConvertCacheToLRU d.cacheSizeInt] ∧
      LMCall.GetCacheType ∉ (pathCacheConfigWrite ops b d).2.calls.drop b.calls.length ∧
      (∀ b2 : backend σ,
        (pathCacheConfigWrite ops b2 d).2.calls.drop b2.calls.length =
          (pathCacheConfigWrite ops b d).2.calls.drop b.calls.length) ∧
      ops.GetCacheLength (pathCacheConfigWrite ops b d).2.lm = 0 := by
  rcases h with h | ⟨h, hs⟩
  · have hw := fun b0 : backend σ => write_syncmap ops b0 d h
    simp [hw, h, hS]
  · have hw := fun b0 : backend σ => write_lru_ok ops b0 d h hs
    simp [hw, h, hL _ _ hs]

/-- Witness of C8: a bounded cache of capacity 500 holding two entries,
configured again as "lru" with size 500, is switched all the same and is empty
afterwards. -/
theorem pathCacheConfigWrite_never_skips_switch_witness :
    (pathCacheConfigWrite specLockManager
        ⟨⟨CacheStrategy.Bounded 500, [("a", ⟨[1]⟩), ("b", ⟨[2]⟩)]⟩, []⟩
        ⟨some "lru", some 500, none⟩).2.calls = [] ++ [LMCall.ConvertCacheToLRU 500] ∧
      specLockManager.GetCacheLength
        (pathCacheConfigWrite specLockManager
          ⟨⟨CacheStrategy.Bounded 500, [("a", ⟨[1]⟩), ("b", ⟨[2]⟩)]⟩, []⟩
          ⟨some "lru", some 500, none⟩).2.lm = 0 :=
  have hw := pathCacheConfigWrite_never_skips_switch specLockManager
    ⟨⟨CacheStrategy.Bounded 500, [("a", ⟨[1]⟩), ("b", ⟨[2]⟩)]⟩, []⟩
    ⟨some "lru", some 500, none⟩ (Or.inr ⟨rfl, by decide⟩)
    (fun s => by rw [spec_convert_syncmap s]; exact spec_len_empty _)
    (fun n s hn => by rw [spec_convert_lru n s hn]; exact spec_len_empty _)
  ⟨hw.2.1, hw.2.2.2.2⟩

/-- C9: on the key cache of the data model, switching strategy is a cold-cache
event: for every unbounded cache holding N entries, N above zero, and every K
above zero, a read with compute-cache-length true reports cache-type "syncMap"
and cache-length N before the switch; a write with cache-type "lru" and
cache-size K succeeds; and a read with compute-cache-length true after it
reports cache-type "lru" and cache-length 0, which is not N: the cache is then
the empty bounded cache of capacity K, no entry having been carried over. -/
theorem switch_to_lru_is_cold_cache (c : Cache) (calls : List LMCall) (K : Int)
    (ccl : Option Bool) (d2 : FieldData)
    (hU : c.strategy = CacheStrategy.Unbounded) (hN : 0 < c.Len) (hK : 0 < K)
    (hc : d2.computeLength = true) :
    ((pathCacheConfigRead specLockManager ⟨c, calls⟩ d2).1.field "cache-type" =
          some (Value.str "syncMap") ∧
        (pathCacheConfigRead specLockManager ⟨c, calls⟩ d2).1.field "cache-length" =
          some (Value.int c.Len)) ∧
      (pathCacheConfigWrite specLockManager ⟨c, calls⟩ ⟨some "lru", some K, ccl⟩).1 =
        (none, none) ∧
      ((pathCacheConfigRead specLockManager
            (pathCacheConfigWrite specLockManager ⟨c, calls⟩ ⟨some "lru", some K, ccl⟩).2
            d2).1.field "cache-type" = some (Value.str "lru") ∧
        (pathCacheConfigRead specLockManager
            (pathCacheConfigWrite specLockManager ⟨c, calls⟩ ⟨some "lru", some K, ccl⟩).2
            d2).1.field "cache-length" = some (Value.int 0)) ∧
      some (Value.int c.Len) ≠ some (Value.int 0) ∧
      (pathCacheConfigWrite specLockManager ⟨c, calls⟩ ⟨some "lru", some K, ccl⟩).2.lm =
        ⟨CacheStrategy.Bounded K, []⟩ := by
  have hw := write_lru_ok specLockManager ⟨c, calls⟩ ⟨some "lru", some K, ccl⟩ rfl hK
  have hK2 : specLockManager.ConvertCacheToLRU
      (FieldData.cacheSizeInt ⟨some "lru", some K, ccl⟩) c = ⟨CacheStrategy.Bounded K, []⟩ :=
    spec_convert_lru K c hK
  have hT : specLockManager.GetCacheType c = CacheType.SYNCMAP := by
    simp [specLockManager, Cache.CurrentStrategyKind, hU]
  rw [hw]
  refine ⟨⟨?_, ?_⟩, rfl, ⟨?_, ?_⟩, ?_, hK2⟩
  · rw [read_cache_type]
    simp only [hT]
  · rw [read_with_length specLockManager _ d2 hc]
    simp [HandlerResult.field, DataMap.get, specLockManager]
  · rw [read_cache_type]
    simp only [hK2]
    rfl
  · rw [read_with_length specLockManager _ d2 hc]
    simp only [hK2]
    simp [HandlerResult.field, DataMap.get, spec_len_empty]
  · intro h
    have h0 : c.Len = 0 := by simpa using h
    omega

/-- Witness of C9: an unbounded cache holding two entries, switched to "lru"
with size 500, reports cache-length 0. -/
theorem switch_to_lru_is_cold_cache_witness :
    (pathCacheConfigRead specLockManager
        (pathCacheConfigWrite specLockManager
          ⟨⟨CacheStrategy.Unbounded, [("a", ⟨[1]⟩), ("b", ⟨[2]⟩)]⟩, []⟩
          ⟨some "lru", some 500, none⟩).2
        ⟨none, none, some true⟩).1.field "cache-length" = some (Value.int 0) :=
  (switch_to_lru_is_cold_cache ⟨CacheStrategy.Unbounded, [("a", ⟨[1]⟩), ("b", ⟨[2]⟩)]⟩ [] 500
    none ⟨none, none, some true⟩ rfl (by decide) (by decide) rfl).2.2.1.2

/-- C10: the cache-type strings the read handler produces are not all accepted
by the write handler.  Written back as cache-type, "syncMap" is refused with
"unknown cache-type syncMap" and "unknown" with "unknown cache-type unknown",
for every cache-size; "lru" is accepted with any cache-size above zero; so a
string the read handler reports is accepted by the write handler, for some
cache-size, exactly when it is "lru". -/
theorem read_output_as_write_input {σ : Type} (ops : LockManager σ) (b : backend σ)
    (size : Option Int) (ccl : Option Bool) :
    (pathCacheConfigWrite ops b ⟨some "syncMap", size, ccl⟩).1 =
        (some (ErrorResponse "unknown cache-type syncMap"),
          some LogicalError.ErrInvalidRequest) ∧
      (pathCacheConfigWrite ops b ⟨some "unknown", size, ccl⟩).1 =
        (some (ErrorResponse "unknown cache-type unknown"),
          some LogicalError.ErrInvalidRequest) ∧
      (∀ n : Int, 0 < n →
        (pathCacheConfigWrite ops b ⟨some "lru", some n, ccl⟩).1 = (none, none)) ∧
      (∀ (b0 : backend σ) (d0 : FieldData) (t : String),
        (pathCacheConfigRead ops b0 d0).1.field "cache-type" = some (Value.str t) →
        ((∃ sz : Option Int, (pathCacheConfigWrite ops b ⟨some t, sz, ccl⟩).1.2 = none) ↔
          t = "lru")) := by
  have hsync : ∀ sz : Option Int, (pathCacheConfigWrite ops b ⟨some "syncMap", sz, ccl⟩).1 =
      (some (ErrorResponse "unknown cache-type syncMap"),
        some LogicalError.ErrInvalidRequest) := fun sz => by
    rw [write_unknown ops b ⟨some "syncMap", sz, ccl⟩
      (show ("syncMap" : String) ≠ "syncmap" by decide) (show ("syncMap" : String) ≠ "lru" by decide)]
    rfl
  have hunk : ∀ sz : Option Int, (pathCacheConfigWrite ops b ⟨some "unknown", sz, ccl⟩).1 =
      (some (ErrorResponse "unknown cache-type unknown"),
        some LogicalError.ErrInvalidRequest) := fun sz => by
    rw [write_unknown ops b ⟨some "unknown", sz, ccl⟩
      (show ("unknown" : String) ≠ "syncmap" by decide) (show ("unknown" : String) ≠ "lru" by decide)]
    rfl
  have hlru : ∀ n : Int, 0 < n →
      (pathCacheConfigWrite ops b ⟨some "lru", some n, ccl⟩).1 = (none, none) := fun n hn => by
    rw [write_lru_ok ops b ⟨some "lru", some n, ccl⟩ rfl hn]
  refine ⟨hsync size, hunk size, hlru, ?_⟩
  intro b0 d0 t ht
  constructor
  · rintro ⟨sz, hsz⟩
    rcases read_cache_type_cases ops b0 d0 with h | h | h
    · rw [h] at ht
      obtain rfl : "syncMap" = t := by simpa using ht
      rw [hsync sz] at hsz
      exact absurd hsz (by simp)
    · rw [h] at ht
      simpa using ht.symm
    · rw [h] at ht
      obtain rfl : "unknown" = t := by simpa using ht
      rw [hunk sz] at hsz
      exact absurd hsz (by simp)
  · rintro rfl
    exact ⟨some 1, by rw [hlru 1 (by decide)]⟩

end Transit
